import Mathlib

/-!
Shallow embedding of the poker position trainer
(`src/app/components/poker-position-trainer.tsx`, with the historical
button-excluding variant in `src/unnamed/part_000`).

Randomness is made explicit: every call site of `getRandomInt max`
(which returns `Math.floor(Math.random() * max)`, a natural number in
`[0, max)` for `max > 0`) becomes an explicit draw argument, and the
in-range condition `draw < max` becomes a hypothesis of the theorems.
JavaScript array reads `a[i]` are embedded as an `Option`-returning
access (`undefined` becomes `none`), and the JavaScript `%` operator on
possibly-negative numbers is embedded as `Int.tmod` (truncating
remainder, sign of the dividend), matching JS semantics.
-/

namespace PokerTrainer

/-- A table position, as in the `Position` interface of the source. -/
structure Position where
  name : String
  label : String
deriving DecidableEq

/-- The `POSITIONS_9MAX` constant of the source. -/
def POSITIONS_9MAX : List Position :=
  [⟨"BTN", "BTN"⟩, ⟨"SB", "SB"⟩, ⟨"BB", "BB"⟩, ⟨"UTG", "UTG"⟩,
   ⟨"UTG+1", "UTG+1"⟩, ⟨"UTG+2", "UTG+2"⟩, ⟨"LJ", "LJ"⟩, ⟨"HJ", "HJ"⟩,
   ⟨"CO", "CO"⟩]

/-- The `POSITIONS_6MAX` constant of the source. -/
def POSITIONS_6MAX : List Position :=
  [⟨"BTN", "BTN"⟩, ⟨"SB", "SB"⟩, ⟨"BB", "BB"⟩, ⟨"UTG", "UTG"⟩,
   ⟨"HJ", "HJ"⟩, ⟨"CO", "CO"⟩]

/-- The source function `getPositions(tableSize)`:
`tableSize === 6 ? POSITIONS_6MAX : POSITIONS_9MAX`.
The TypeScript type `TableSize = 6 | 9` is embedded as `Nat`; theorems
carry the hypothesis `tableSize = 6 ∨ tableSize = 9` where it matters. -/
def getPositions (tableSize : Nat) : List Position :=
  if tableSize = 6 then POSITIONS_6MAX else POSITIONS_9MAX

/-- JavaScript array read `l[i]` at a possibly negative index: a read at
a negative index yields `undefined`, embedded as `none`. -/
def jsGet (l : List Position) (i : Int) : Option Position :=
  if 0 ≤ i then l[i.toNat]? else none

/-- The `QuizState` interface of the source. -/
structure QuizState where
  btnSeatIndex : Nat
  questionSeatIndex : Nat
  correctPosition : String
deriving DecidableEq

/-- The source function `generateQuiz(tableSize)` of
`poker-position-trainer.tsx`. The two calls of `getRandomInt(totalSeats)`
are passed in as the draws `btnDraw` (for `btnSeatIndex`) and
`offsetDraw` (for `questionOffset`). The subtraction
`questionSeatIndex - btnSeatIndex` is JavaScript number subtraction, so
it is computed in `Int`, and `%` on that value is `Int.tmod`. The read
`positions[relativePosition]` is the `Option`-returning `jsGet`; taking
`.name` of `undefined` would throw in JS, so the whole result is `none`
in that case. -/
def generateQuiz (tableSize btnDraw offsetDraw : Nat) : Option QuizState :=
  let positions := getPositions tableSize
  let totalSeats := positions.length
  let btnSeatIndex := btnDraw
  let questionOffset := offsetDraw
  let questionSeatIndex := (btnSeatIndex + questionOffset) % totalSeats
  let relativePosition : Int :=
    ((questionSeatIndex : Int) - (btnSeatIndex : Int) + (totalSeats : Int)).tmod
      (totalSeats : Int)
  (jsGet positions relativePosition).map fun p =>
    { btnSeatIndex := btnSeatIndex, questionSeatIndex := questionSeatIndex,
      correctPosition := p.name }

/-- The `generateQuiz` of the historical variant `src/unnamed/part_000`,
where the question offset is `1 + getRandomInt(totalSeats - 1)` so that
the button seat itself is never asked about. `offsetDraw` stands for the
draw `getRandomInt(totalSeats - 1)`, in `[0, totalSeats - 1)`. -/
def generateQuizNoBtn (tableSize btnDraw offsetDraw : Nat) : Option QuizState :=
  let positions := getPositions tableSize
  let totalSeats := positions.length
  let btnSeatIndex := btnDraw
  let questionOffset := 1 + offsetDraw
  let questionSeatIndex := (btnSeatIndex + questionOffset) % totalSeats
  let relativePosition : Int :=
    ((questionSeatIndex : Int) - (btnSeatIndex : Int) + (totalSeats : Int)).tmod
      (totalSeats : Int)
  (jsGet positions relativePosition).map fun p =>
    { btnSeatIndex := btnSeatIndex, questionSeatIndex := questionSeatIndex,
      correctPosition := p.name }

/-- Modelled from the spec: the "hero" seat of the "self"/"others" quiz
modes, `floor(totalSeats / 2)`. No quiz-mode parameter and no hero seat
occur anywhere in the code under `src/`; the spec describes them for the
mode = "self"/"others" variants. -/
def heroSeat (totalSeats : Nat) : Nat :=
  totalSeats / 2

/-- The swap `[a[i], a[j]] = [a[j], a[i]]` of two in-range cells of a
JavaScript array, as performed by the loop body of `shuffleArray`. The
source only ever swaps in-range cells (`i ∈ [1, length)`, `j ∈ [0, i]`);
out-of-range indices leave the list unchanged in this embedding. -/
def swapCells (l : List Position) (i j : Nat) : List Position :=
  match l[i]?, l[j]? with
  | some a, some b => (l.set i b).set j a
  | _, _ => l

/-- The Fisher–Yates loop of `shuffleArray`:
`for (let i = length - 1; i > 0; i--)` swapping index `i` with the drawn
index `draws i = Math.floor(Math.random() * (i + 1)) ∈ [0, i]`. The
argument of `fyLoop` is the current value of the loop counter `i`. -/
def fyLoop (draws : Nat → Nat) : List Position → Nat → List Position
  | l, 0 => l
  | l, i + 1 => fyLoop draws (swapCells l (i + 1) (draws (i + 1))) i

/-- The source function `shuffleArray(arr)`: copies the array and runs the
Fisher–Yates loop from `length - 1` down to `1`, with the per-iteration
random draws passed in explicitly as `draws`. -/
def shuffleArray (arr : List Position) (draws : Nat → Nat) : List Position :=
  fyLoop draws arr (arr.length - 1)

/-- The `stats` state of the component: `{ correct, total }`. -/
structure Stats where
  correct : Nat
  total : Nat
deriving DecidableEq

/-- The `AnswerResult` values `"correct"` and `"incorrect"`; the `null`
case is `Option.none` at the use sites. -/
inductive AnswerResult where
  | correct
  | incorrect
deriving DecidableEq

/-- The state held by the `PokerPositionTrainer` component of
`poker-position-trainer.tsx`: the five `useState` cells. -/
structure TrainerState where
  tableSize : Nat
  quiz : QuizState
  stats : Stats
  shuffledPositions : List Position
  feedback : Option AnswerResult
deriving DecidableEq

/-- The `handleAnswer(answer)` callback of `poker-position-trainer.tsx`:
compares `answer === quiz.correctPosition`, updates the stats, shows the
feedback, and immediately regenerates the quiz for the current table
size (the two fresh `getRandomInt` draws are `btnDraw`, `offsetDraw`).
`none` when `generateQuiz` dereferences an `undefined` cell. -/
def handleAnswer (s : TrainerState) (answer : String) (btnDraw offsetDraw : Nat) :
    Option TrainerState :=
  let isCorrect := answer == s.quiz.correctPosition
  let result : AnswerResult := if isCorrect then .correct else .incorrect
  (generateQuiz s.tableSize btnDraw offsetDraw).map fun q =>
    { s with
      stats := { correct := s.stats.correct + (if isCorrect then 1 else 0),
                 total := s.stats.total + 1 },
      feedback := some result,
      quiz := q }

/-- The `handleTableSizeChange(size)` callback of
`poker-position-trainer.tsx`: switches the table size, regenerates the
quiz (draws `btnDraw`, `offsetDraw`), clears the feedback, zeroes the
stats, and reshuffles the answer buttons (per-iteration draws
`shuffleDraws`). -/
def handleTableSizeChange (s : TrainerState) (size btnDraw offsetDraw : Nat)
    (shuffleDraws : Nat → Nat) : Option TrainerState :=
  (generateQuiz size btnDraw offsetDraw).map fun q =>
    { tableSize := size,
      quiz := q,
      feedback := none,
      stats := { correct := 0, total := 0 },
      shuffledPositions := shuffleArray (getPositions size) shuffleDraws }

end PokerTrainer

/-!
Helper lemmas shared by the claim theorems.
-/

namespace PokerTrainer

/-- Both position tables are nonempty, so `totalSeats` is positive for
every table size. -/
theorem getPositions_length_pos (ts : Nat) : 0 < (getPositions ts).length := by
  rw [getPositions]
  split <;> decide

/-- Casting the relative-offset computation from `Int` (as the JS code
performs it) to `Nat`: for an in-range button seat and question seat the
truncating remainder agrees with the natural-number remainder. -/
theorem relIndex_cast (bd qi n : Nat) (hb : bd < n) (hqi : qi < n) :
    ((qi : Int) - (bd : Int) + (n : Int)) % (n : Int) =
      (((qi + n - bd) % n : Nat) : Int) := by
  have h1 : ((qi : Int) - (bd : Int) + (n : Int)) = ((qi + n - bd : Nat) : Int) := by
    omega
  rw [h1]
  exact (Int.natCast_mod _ _).symm

/-- Characterization of `generateQuiz` at an in-range button draw: the
lookup succeeds and the resulting `QuizState` is built from the drawn
button seat, the offset question seat, and the name of the position at
the relative offset. -/
theorem generateQuiz_char (ts bd od : Nat)
    (hb : bd < (getPositions ts).length) :
    ∃ p, (getPositions ts)[((bd + od) % (getPositions ts).length +
        (getPositions ts).length - bd) % (getPositions ts).length]? = some p ∧
      generateQuiz ts bd od = some
        { btnSeatIndex := bd,
          questionSeatIndex := (bd + od) % (getPositions ts).length,
          correctPosition := p.name } := by
  have hnpos : 0 < (getPositions ts).length := getPositions_length_pos ts
  set n := (getPositions ts).length with hn
  set qi := (bd + od) % n with hqi
  have hqilt : qi < n := Nat.mod_lt _ hnpos
  have hcast : ((qi : Int) - (bd : Int) + (n : Int)).tmod (n : Int) =
      (((qi + n - bd) % n : Nat) : Int) := by
    rw [Int.tmod_eq_emod (by omega) (by omega)]
    exact relIndex_cast bd qi n hb hqilt
  have hidx : (qi + n - bd) % n < n := Nat.mod_lt _ hnpos
  obtain ⟨p, hp⟩ : ∃ p, (getPositions ts)[(qi + n - bd) % n]? = some p :=
    ⟨_, List.getElem?_eq_getElem (by rw [← hn]; exact hidx)⟩
  refine ⟨p, hp, ?_⟩
  have hdef : generateQuiz ts bd od =
      (jsGet (getPositions ts)
        (((qi : Int) - (bd : Int) + (n : Int)).tmod (n : Int))).map
        (fun p => { btnSeatIndex := bd, questionSeatIndex := qi,
                    correctPosition := p.name }) := rfl
  rw [hdef, hcast]
  simp only [jsGet, Int.natCast_nonneg, if_true, Int.toNat_natCast]
  rw [hp]
  rfl

/-- Inserting an element `a` at a cell whose old content `b` moves to the
front is a permutation: the two elements trade places. -/
theorem cons_set_perm (a : Position) :
    ∀ (l : List Position) (k : Nat) (b : Position), l[k]? = some b →
      List.Perm (b :: l.set k a) (a :: l) := by
  intro l
  induction l with
  | nil => intro k b h; simp at h
  | cons c t ih =>
    intro k b h
    cases k with
    | zero =>
      simp only [List.getElem?_cons_zero, Option.some.injEq] at h
      subst h
      simpa using List.Perm.swap a c t
    | succ k =>
      simp only [List.getElem?_cons_succ] at h
      simp only [List.set_cons_succ]
      exact ((List.Perm.swap c b _).trans
        (List.Perm.cons c (ih k b h))).trans (List.Perm.swap a c t)

/-- Swapping the contents of two cells (given in increasing index order)
permutes the list. -/
theorem set_set_perm_le :
    ∀ (l : List Position) (i j : Nat) (a b : Position), i ≤ j →
      l[i]? = some a → l[j]? = some b →
      List.Perm ((l.set i b).set j a) l := by
  intro l
  induction l with
  | nil => intro i j a b hij hi hj; simp at hi
  | cons c t ih =>
    intro i j a b hij hi hj
    cases i with
    | zero =>
      simp only [List.getElem?_cons_zero, Option.some.injEq] at hi
      subst hi
      cases j with
      | zero =>
        simp only [List.getElem?_cons_zero, Option.some.injEq] at hj
        subst hj
        simp
      | succ k =>
        simp only [List.getElem?_cons_succ] at hj
        simp only [List.set_cons_zero, List.set_cons_succ]
        exact cons_set_perm c t k b hj
    | succ i' =>
      cases j with
      | zero => omega
      | succ j' =>
        simp only [List.getElem?_cons_succ] at hi hj
        simp only [List.set_cons_succ]
        exact List.Perm.cons c (ih i' j' a b (by omega) hi hj)

/-- One loop-body swap of `shuffleArray` permutes the list, for any pair
of indices. -/
theorem swapCells_perm (l : List Position) (i j : Nat) :
    List.Perm (swapCells l i j) l := by
  rw [swapCells]
  split
  · next a b hi hj =>
    rcases le_or_lt i j with h | h
    · exact set_set_perm_le l i j a b h hi hj
    · have hij : i ≠ j := by omega
      rw [List.set_comm b a l hij]
      exact set_set_perm_le l j i b a (le_of_lt h) hj hi
  · exact List.Perm.refl l

/-- The whole Fisher–Yates loop permutes the list, for any draws and any
starting counter. -/
theorem fyLoop_perm (draws : Nat → Nat) :
    ∀ (i : Nat) (l : List Position), List.Perm (fyLoop draws l i) l := by
  intro i
  induction i with
  | zero => intro l; exact List.Perm.refl l
  | succ n ih =>
    intro l
    exact (ih _).trans (swapCells_perm l (n + 1) (draws (n + 1)))

end PokerTrainer

/-!
Claim theorems.
-/

namespace PokerTrainer

/-- C1: for every tableSize in {6,9} and every pair of in-range random
draws, the QuizState returned by `generateQuiz` satisfies
`correctPosition = getPositions(tableSize)[(questionSeatIndex -
btnSeatIndex + totalSeats) mod totalSeats].name` with
`totalSeats = |getPositions tableSize|`; equivalently, `correctPosition`
is a pure function of `(tableSize, btnSeatIndex, questionSeatIndex)`:
two outputs (for any in-range draws) that agree on the two seat indices
agree on `correctPosition`. -/
theorem generateQuiz_offset_invariant (ts bd od bd' od' : Nat)
    (hts : ts = 6 ∨ ts = 9)
    (hb : bd < (getPositions ts).length) (ho : od < (getPositions ts).length)
    (hb' : bd' < (getPositions ts).length) (ho' : od' < (getPositions ts).length)
    (q q' : QuizState)
    (hq : generateQuiz ts bd od = some q)
    (hq' : generateQuiz ts bd' od' = some q') :
    ((jsGet (getPositions ts)
        (((q.questionSeatIndex : Int) - (q.btnSeatIndex : Int) +
          ((getPositions ts).length : Int)) % ((getPositions ts).length : Int))).map
      Position.name) = some q.correctPosition ∧
    (q.btnSeatIndex = q'.btnSeatIndex → q.questionSeatIndex = q'.questionSeatIndex →
      q.correctPosition = q'.correctPosition) := by
  have hnpos := getPositions_length_pos ts
  obtain ⟨p, hp, hgen⟩ := generateQuiz_char ts bd od hb
  obtain ⟨p', hp', hgen'⟩ := generateQuiz_char ts bd' od' hb'
  rw [hq] at hgen
  rw [hq'] at hgen'
  injection hgen with hgen
  injection hgen' with hgen'
  subst hgen
  subst hgen'
  constructor
  · rw [relIndex_cast bd ((bd + od) % (getPositions ts).length) _ hb
      (Nat.mod_lt _ hnpos)]
    simp only [jsGet, Int.natCast_nonneg, if_true, Int.toNat_natCast]
    rw [hp]
    rfl
  · intro h1 h2
    simp only at h1 h2
    subst h1
    rw [← h2] at hp'
    have hpp : p = p' := by
      have h3 := hp.symm.trans hp'
      injection h3
    rw [hpp]

/-- C1 witness: the invariant at tableSize 6 with draws (0, 2), whose
quiz is `⟨0, 2, "BB"⟩`. -/
theorem generateQuiz_offset_invariant_witness :
    ((jsGet (getPositions 6)
        ((((2 : Nat) : Int) - ((0 : Nat) : Int) + ((getPositions 6).length : Int)) %
          ((getPositions 6).length : Int))).map Position.name) = some "BB" ∧
    ((0 : Nat) = (0 : Nat) → (2 : Nat) = (2 : Nat) → "BB" = "BB") :=
  generateQuiz_offset_invariant 6 0 2 0 2 (Or.inl rfl) (by decide) (by decide)
    (by decide) (by decide) ⟨0, 2, "BB"⟩ ⟨0, 2, "BB"⟩ (by decide) (by decide)

/-- C2: `getPositions 6` returns the names BTN, SB, BB, UTG, HJ, CO in
exactly that order and `getPositions 9` returns BTN, SB, BB, UTG, UTG+1,
UTG+2, LJ, HJ, CO in exactly that order. `getPositions` is a pure
function of the table size alone, so the returned order is identical on
every call, regardless of any intervening `shuffleArray` calls (which
operate on a copy) or quiz rounds. -/
theorem getPositions_canonical :
    (getPositions 6).map Position.name = ["BTN", "SB", "BB", "UTG", "HJ", "CO"] ∧
    (getPositions 9).map Position.name =
      ["BTN", "SB", "BB", "UTG", "UTG+1", "UTG+2", "LJ", "HJ", "CO"] := by
  decide

/-- C3 counterexample: in the button-excluding variant the question seat
is drawn as a non-zero offset from the button seat, not from the hero
seat `floor(totalSeats / 2)`: with tableSize 6, btnDraw 0 and offset
draw 2 (all in range), the generated question seat is 3, which IS the
hero seat of a 6-seat table, contradicting the claimed guarantee
`questionSeatIndex ≠ heroSeat`. -/
theorem generateQuizNoBtn_hero_counterexample :
    generateQuizNoBtn 6 0 2 = some ⟨0, 3, "UTG"⟩ ∧
    heroSeat (getPositions 6).length = 3 := by
  decide

/-- C3 amended: the button-excluding variant (`src/unnamed/part_000`)
chooses `questionSeatIndex` via a non-zero random offset from
`btnSeatIndex` modulo totalSeats, so that for every in-range pair of
draws `questionSeatIndex ≠ btnSeatIndex` (not `≠ heroSeat`; no quiz mode
and no hero seat occur in the code). -/
theorem generateQuizNoBtn_ne_btn (ts bd od : Nat) (hts : ts = 6 ∨ ts = 9)
    (hb : bd < (getPositions ts).length)
    (ho : od < (getPositions ts).length - 1) :
    ∃ q, generateQuizNoBtn ts bd od = some q ∧ q.btnSeatIndex = bd ∧
      q.questionSeatIndex = (bd + (1 + od)) % (getPositions ts).length ∧
      q.questionSeatIndex ≠ q.btnSeatIndex := by
  have hnpos := getPositions_length_pos ts
  have heq : generateQuizNoBtn ts bd od = generateQuiz ts bd (1 + od) := rfl
  obtain ⟨p, hp, hgen⟩ := generateQuiz_char ts bd (1 + od) hb
  refine ⟨_, heq ▸ hgen, rfl, rfl, ?_⟩
  simp only
  intro hcon
  rcases Nat.lt_or_ge (bd + (1 + od)) (getPositions ts).length with h | h
  · rw [Nat.mod_eq_of_lt h] at hcon
    omega
  · have h2 : bd + (1 + od) - (getPositions ts).length <
        (getPositions ts).length := by
      omega
    rw [Nat.mod_eq_sub_mod h, Nat.mod_eq_of_lt h2] at hcon
    omega

/-- C3 amended witness: at tableSize 6 with draws (0, 0). -/
theorem generateQuizNoBtn_ne_btn_witness :
    ∃ q, generateQuizNoBtn 6 0 0 = some q ∧ q.btnSeatIndex = 0 ∧
      q.questionSeatIndex = (0 + (1 + 0)) % (getPositions 6).length ∧
      q.questionSeatIndex ≠ q.btnSeatIndex :=
  generateQuizNoBtn_ne_btn 6 0 0 (Or.inl rfl) (by decide) (by decide)

/-- C4: for every answer submission on a state with stats {correct c,
total t}, the new stats are {c+1, t+1} if the submitted name
string-equals `quiz.correctPosition` and {c, t+1} otherwise. -/
theorem handleAnswer_stats (s : TrainerState) (answer : String) (bd od : Nat)
    (hts : s.tableSize = 6 ∨ s.tableSize = 9)
    (hb : bd < (getPositions s.tableSize).length)
    (ho : od < (getPositions s.tableSize).length) :
    ∃ s', handleAnswer s answer bd od = some s' ∧
      s'.stats.total = s.stats.total + 1 ∧
      (answer = s.quiz.correctPosition → s'.stats.correct = s.stats.correct + 1) ∧
      (answer ≠ s.quiz.correctPosition → s'.stats.correct = s.stats.correct) := by
  obtain ⟨p, hp, hgen⟩ := generateQuiz_char s.tableSize bd od hb
  have hha : handleAnswer s answer bd od = some
      { s with
        stats := { correct := s.stats.correct +
                     (if answer == s.quiz.correctPosition then 1 else 0),
                   total := s.stats.total + 1 },
        feedback := some (if answer == s.quiz.correctPosition then .correct
                          else .incorrect),
        quiz := { btnSeatIndex := bd,
                  questionSeatIndex := (bd + od) % (getPositions s.tableSize).length,
                  correctPosition := p.name } } := by
    unfold handleAnswer
    rw [hgen]
    rfl
  refine ⟨_, hha, rfl, ?_, ?_⟩
  · intro h
    simp only [h, beq_self_eq_true, if_true]
  · intro h
    have hbe : (answer == s.quiz.correctPosition) = false :=
      beq_eq_false_iff_ne.mpr h
    simp only [hbe, Bool.false_eq_true, if_false, Nat.add_zero]

/-- C4 witness: submitting the correct answer "BB" on a 6-max state with
stats {2, 5} and quiz `⟨0, 2, "BB"⟩`. -/
theorem handleAnswer_stats_witness :
    ∃ s', handleAnswer ⟨6, ⟨0, 2, "BB"⟩, ⟨2, 5⟩, POSITIONS_6MAX, none⟩ "BB" 0 0 =
        some s' ∧
      s'.stats.total = 5 + 1 ∧
      ("BB" = "BB" → s'.stats.correct = 2 + 1) ∧
      ("BB" ≠ "BB" → s'.stats.correct = 2) :=
  handleAnswer_stats ⟨6, ⟨0, 2, "BB"⟩, ⟨2, 5⟩, POSITIONS_6MAX, none⟩ "BB" 0 0
    (Or.inl rfl) (by decide) (by decide)

/-- C5: for every prior state and every new table size in {6,9} (with
in-range draws), the table-size-change transition resets the stats to
{0, 0} and produces a quiz whose btnSeatIndex and questionSeatIndex lie
in [0, newTotalSeats). -/
theorem handleTableSizeChange_resets (s : TrainerState) (size bd od : Nat)
    (sd : Nat → Nat) (hsize : size = 6 ∨ size = 9)
    (hb : bd < (getPositions size).length) (ho : od < (getPositions size).length) :
    ∃ s', handleTableSizeChange s size bd od sd = some s' ∧
      s'.stats = { correct := 0, total := 0 } ∧
      s'.quiz.btnSeatIndex < (getPositions size).length ∧
      s'.quiz.questionSeatIndex < (getPositions size).length := by
  obtain ⟨p, hp, hgen⟩ := generateQuiz_char size bd od hb
  have hch : handleTableSizeChange s size bd od sd = some
      { tableSize := size,
        quiz := { btnSeatIndex := bd,
                  questionSeatIndex := (bd + od) % (getPositions size).length,
                  correctPosition := p.name },
        feedback := none,
        stats := { correct := 0, total := 0 },
        shuffledPositions := shuffleArray (getPositions size) sd } := by
    unfold handleTableSizeChange
    rw [hgen]
    rfl
  exact ⟨_, hch, rfl, hb, Nat.mod_lt _ (getPositions_length_pos size)⟩

/-- C5 witness: switching a 6-max state to 9-max with draws (4, 7). -/
theorem handleTableSizeChange_resets_witness :
    ∃ s', handleTableSizeChange ⟨6, ⟨0, 2, "BB"⟩, ⟨2, 5⟩, POSITIONS_6MAX, none⟩
        9 4 7 (fun _ => 0) = some s' ∧
      s'.stats = { correct := 0, total := 0 } ∧
      s'.quiz.btnSeatIndex < (getPositions 9).length ∧
      s'.quiz.questionSeatIndex < (getPositions 9).length :=
  handleTableSizeChange_resets ⟨6, ⟨0, 2, "BB"⟩, ⟨2, 5⟩, POSITIONS_6MAX, none⟩
    9 4 7 (fun _ => 0) (Or.inr rfl) (by decide) (by decide)

/-- C6: the concrete resolution scenarios. With tableSize 6, button seat
0 and question seat 2 the resolved position is "BB"; with tableSize 9,
button seat 3 and question seat 3 (offset draw 0) it is "BTN"; with
tableSize 9, button seat 1 and question seat 0 (offset draw 8, so that
(0 - 1 + 9) mod 9 = 8) it is "CO". -/
theorem generateQuiz_scenarios :
    generateQuiz 6 0 2 = some ⟨0, 2, "BB"⟩ ∧
    generateQuiz 9 3 0 = some ⟨3, 3, "BTN"⟩ ∧
    generateQuiz 9 1 8 = some ⟨1, 0, "CO"⟩ := by
  decide

/-- C7: for every input sequence and every sequence of random draws,
`shuffleArray` returns a permutation of its input: the output has the
same length and the same multiset of elements as the input. -/
theorem shuffleArray_perm (arr : List Position) (draws : Nat → Nat) :
    (shuffleArray arr draws).length = arr.length ∧
    ((shuffleArray arr draws : List Position) : Multiset Position) =
      (arr : Multiset Position) := by
  have h := fyLoop_perm draws (arr.length - 1) arr
  exact ⟨h.length_eq, Multiset.coe_eq_coe.mpr h⟩

/-- C8: the shuffled answer-choice order is not re-shuffled on answer
submission, only on a table-size change: every answer-submission
transition leaves `shuffledPositions` unchanged, while every table-size
change replaces it with a fresh shuffle of the new table's positions. -/
theorem shuffledPositions_frame (s : TrainerState) (answer : String)
    (size bd od bd2 od2 : Nat) (sd : Nat → Nat)
    (hts : s.tableSize = 6 ∨ s.tableSize = 9)
    (hb : bd < (getPositions s.tableSize).length)
    (ho : od < (getPositions s.tableSize).length)
    (hsize : size = 6 ∨ size = 9)
    (hb2 : bd2 < (getPositions size).length)
    (ho2 : od2 < (getPositions size).length) :
    (∃ s₁, handleAnswer s answer bd od = some s₁ ∧
      s₁.shuffledPositions = s.shuffledPositions) ∧
    (∃ s₂, handleTableSizeChange s size bd2 od2 sd = some s₂ ∧
      s₂.shuffledPositions = shuffleArray (getPositions size) sd) := by
  obtain ⟨p, hp, hgen⟩ := generateQuiz_char s.tableSize bd od hb
  obtain ⟨p2, hp2, hgen2⟩ := generateQuiz_char size bd2 od2 hb2
  have hha : handleAnswer s answer bd od = some
      { s with
        stats := { correct := s.stats.correct +
                     (if answer == s.quiz.correctPosition then 1 else 0),
                   total := s.stats.total + 1 },
        feedback := some (if answer == s.quiz.correctPosition then .correct
                          else .incorrect),
        quiz := { btnSeatIndex := bd,
                  questionSeatIndex := (bd + od) % (getPositions s.tableSize).length,
                  correctPosition := p.name } } := by
    unfold handleAnswer
    rw [hgen]
    rfl
  have hch : handleTableSizeChange s size bd2 od2 sd = some
      { tableSize := size,
        quiz := { btnSeatIndex := bd2,
                  questionSeatIndex := (bd2 + od2) % (getPositions size).length,
                  correctPosition := p2.name },
        feedback := none,
        stats := { correct := 0, total := 0 },
        shuffledPositions := shuffleArray (getPositions size) sd } := by
    unfold handleTableSizeChange
    rw [hgen2]
    rfl
  exact ⟨⟨_, hha, rfl⟩, ⟨_, hch, rfl⟩⟩

/-- C8 witness: a 6-max state answering "SB", then switching to 9-max. -/
theorem shuffledPositions_frame_witness :
    (∃ s₁, handleAnswer ⟨6, ⟨0, 2, "BB"⟩, ⟨2, 5⟩, POSITIONS_6MAX, none⟩ "SB" 1 3 =
        some s₁ ∧ s₁.shuffledPositions = POSITIONS_6MAX) ∧
    (∃ s₂, handleTableSizeChange ⟨6, ⟨0, 2, "BB"⟩, ⟨2, 5⟩, POSITIONS_6MAX, none⟩
        9 0 0 (fun _ => 0) = some s₂ ∧
      s₂.shuffledPositions = shuffleArray (getPositions 9) (fun _ => 0)) :=
  shuffledPositions_frame ⟨6, ⟨0, 2, "BB"⟩, ⟨2, 5⟩, POSITIONS_6MAX, none⟩ "SB"
    9 1 3 0 0 (fun _ => 0) (Or.inl rfl) (by decide) (by decide) (Or.inr rfl)
    (by decide) (by decide)

/-- C9: `generateQuiz` never indexes out of bounds. For every tableSize
in {6,9} and in-range draws, the generated quiz exists (the array access
returns some), its btnSeatIndex and questionSeatIndex lie in
[0, totalSeats), and its correctPosition is one of the canonical
position names of that table size. -/
theorem generateQuiz_safe (ts bd od : Nat) (hts : ts = 6 ∨ ts = 9)
    (hb : bd < (getPositions ts).length) (ho : od < (getPositions ts).length) :
    ∃ q, generateQuiz ts bd od = some q ∧
      q.btnSeatIndex < (getPositions ts).length ∧
      q.questionSeatIndex < (getPositions ts).length ∧
      q.correctPosition ∈ (getPositions ts).map Position.name := by
  obtain ⟨p, hp, hgen⟩ := generateQuiz_char ts bd od hb
  refine ⟨_, hgen, hb, Nat.mod_lt _ (getPositions_length_pos ts), ?_⟩
  obtain ⟨hlt, hget⟩ := List.getElem?_eq_some_iff.mp hp
  exact List.mem_map.mpr ⟨_, List.getElem_mem hlt, by rw [hget]⟩

/-- C9 witness: tableSize 9 with draws (8, 8). -/
theorem generateQuiz_safe_witness :
    ∃ q, generateQuiz 9 8 8 = some q ∧
      q.btnSeatIndex < (getPositions 9).length ∧
      q.questionSeatIndex < (getPositions 9).length ∧
      q.correctPosition ∈ (getPositions 9).map Position.name :=
  generateQuiz_safe 9 8 8 (Or.inr rfl) (by decide) (by decide)

/-- C10: the question seat may coincide with the button seat. For each
tableSize in {6,9} there are in-range draws with questionOffset 0 for
which the generated quiz has questionSeatIndex = btnSeatIndex and
correctPosition "BTN". -/
theorem generateQuiz_btn_question :
    (∃ q, generateQuiz 6 2 0 = some q ∧ q.questionSeatIndex = q.btnSeatIndex ∧
      q.correctPosition = "BTN") ∧
    (∃ q, generateQuiz 9 5 0 = some q ∧ q.questionSeatIndex = q.btnSeatIndex ∧
      q.correctPosition = "BTN") :=
  ⟨⟨⟨2, 2, "BTN"⟩, by decide, rfl, rfl⟩, ⟨⟨5, 5, "BTN"⟩, by decide, rfl, rfl⟩⟩

end PokerTrainer
